import Mathlib

/-!
# Shallow embedding of the from-bash-to-go health-check programs

The repository contains four small program variants built around one idea:
perform an HTTP GET against a URL and compare the response status code with
an expected value.

* Variant 0 (0/healthcheck.go): a single hardcoded endpoint, client timeout
  2 seconds, exit code 1 plus a printed message when unhealthy.
* Variant 1 (1/main.go): a hardcoded list of HealthCheck values, a Do method
  with a fixed 2 second client timeout returning Bool, a deferred
  resp.Body.Close() after a successful Get, and a loop printing one line per
  unhealthy endpoint.
* Variant 2 (2/main.go): like variant 1 but the timeout is a per-check field
  ResponseTimeout (zero meaning no timeout).
* Variant 3 (3/main.go): like variant 2 but Do returns (bool, error), the
  list of checks is decoded from a JSON config file by readConfig, and the
  loop prints the URL together with the error value. Note: this Do has no
  deferred Body.Close.

The network is modelled as an oracle from URL to behaviour (unreachable, or
a reply after a delay with a status code and an optional Location header).
The Go http.Client is modelled by clientGet: it follows redirect statuses
that carry a Location header (up to 10 redirects, as the default
CheckRedirect allows), accumulates elapsed time across hops, and fails with
a timeout error when a positive timeout is exceeded (Client.Timeout covers
the whole exchange; net/http sets a deadline only when Timeout is positive,
so a zero — and likewise a negative — Timeout means no timeout at all).
Durations are integers counting nanoseconds, as time.Duration is.

Effects are made visible as event logs: each Do records its client.Get call
and any Body.Close it performs, and the drivers record the lines they print.
-/

/-- An HTTP response as delivered to the caller of client.Get: the status
code and the optional Location header (what redirect handling looks at). -/
structure Response where
  statusCode : Int
  location : Option String
deriving Repr, DecidableEq

/-- Behaviour of one URL on the network: unreachable (connection refused or
DNS failure), or a reply after `delay` nanoseconds carrying a status code
and an optional Location header. -/
inductive NetBehavior where
  | unreachable
  | replies (delay : Nat) (statusCode : Int) (location : Option String)
deriving Repr, DecidableEq

/-- The network oracle: what each URL does when a GET reaches it. -/
abbrev Net := String → NetBehavior

/-- Errors client.Get can return: transport failure, Client.Timeout
exceeded, or the default redirect policy giving up after 10 redirects. -/
inductive GetError where
  | connectionError
  | timeoutError
  | tooManyRedirects
deriving Repr, DecidableEq

/-- The redirect status codes the default Go client follows when a Location
header is present: 301, 302, 303, 307, 308. -/
def isRedirectStatus (s : Int) : Bool :=
  s == 301 || s == 302 || s == 303 || s == 307 || s == 308

/-- One request of the redirect-following loop inside client.Get. `fuel`
counts the requests still allowed (11 = initial request + 10 redirects),
`elapsed` the nanoseconds spent so far. A positive `timeout` that the
total elapsed time exceeds fails the whole Get with a timeout error — the
client sets a deadline only for a positive Client.Timeout, so zero and
negative timeouts leave the request unbounded; a redirect status without a
Location header is returned to the caller as is. -/
def clientGetAux (net : Net) (timeout : Int) :
    Nat → String → Nat → Except GetError Response
  | 0, _, _ => .error .tooManyRedirects
  | fuel + 1, url, elapsed =>
    match net url with
    | .unreachable => .error .connectionError
    | .replies delay status location =>
      let elapsedNow := elapsed + delay
      if 0 < timeout ∧ timeout < (elapsedNow : Int) then .error .timeoutError
      else if isRedirectStatus status then
        match location with
        | some next => clientGetAux net timeout fuel next elapsedNow
        | none => .ok ⟨status, none⟩
      else .ok ⟨status, location⟩

/-- Model of client.Get for a Client with the given Timeout (bounding the
request only when positive), against the network oracle `net`. -/
def clientGet (net : Net) (timeout : Int) (url : String) :
    Except GetError Response :=
  clientGetAux net timeout 11 url 0

/-- The HealthCheck struct. Variant 1 has only URL and HealthyStatusCode;
variants 2 and 3 add ResponseTimeout (nanoseconds, zero meaning no
timeout). One structure serves all variants; the variant 1 code simply
never reads ResponseTimeout. -/
structure HealthCheck where
  URL : String
  ResponseTimeout : Int
  HealthyStatusCode : Int
deriving Repr, DecidableEq

/-- 2 * time.Second in nanoseconds. -/
def twoSeconds : Int := 2000000000

/-- Observable events of a run: a client.Get call, a resp.Body.Close, and a
printed line of output. -/
inductive Ev where
  | getCall (url : String)
  | bodyClose
  | printLine (line : String)
deriving Repr, DecidableEq

/-- The lines printed, in order, among the events. -/
def printedLines (evs : List Ev) : List String :=
  evs.filterMap fun e => match e with | .printLine s => some s | _ => none

/-- The URLs passed to client.Get, in order, among the events. -/
def requestedURLs (evs : List Ev) : List String :=
  evs.filterMap fun e => match e with | .getCall u => some u | _ => none

namespace V1

/-- Variant 1 Do with its event log. The client timeout is fixed at 2
seconds. On a transport error it returns false having issued only the Get;
on both return paths after a successful Get, the deferred resp.Body.Close()
runs before the return, so a bodyClose event precedes every such return. -/
def DoT (h : HealthCheck) (net : Net) : Bool × List Ev :=
  match clientGet net twoSeconds h.URL with
  | .error _ => (false, [Ev.getCall h.URL])
  | .ok resp =>
    if resp.statusCode ≠ h.HealthyStatusCode then
      (false, [Ev.getCall h.URL, Ev.bodyClose])
    else
      (true, [Ev.getCall h.URL, Ev.bodyClose])

/-- Variant 1 Do: the boolean outcome alone. -/
def Do (h : HealthCheck) (net : Net) : Bool :=
  (DoT h net).1

/-- The hardcoded check list of variant 1 main (the healthz3 line is
commented out in the source). ResponseTimeout is unused by variant 1. -/
def healthChecks : List HealthCheck :=
  [⟨"http://localhost:8080/healthz", 0, 200⟩,
   ⟨"http://localhost:8080/healthz2", 0, 301⟩]

/-- The loop of variant 1 main over a list of checks: run Do on each check
in order and print one line per unhealthy check. -/
def runChecks (net : Net) : List HealthCheck → List Ev
  | [] => []
  | h :: rest =>
    let r := DoT h net
    r.2 ++ (if r.1 then [] else [Ev.printLine (h.URL ++ " is unhealthy")])
        ++ runChecks net rest

end V1

namespace V2

/-- Variant 2 Do with its event log: like variant 1 but the client timeout
is the per-check ResponseTimeout (zero meaning no timeout). -/
def DoT (h : HealthCheck) (net : Net) : Bool × List Ev :=
  match clientGet net h.ResponseTimeout h.URL with
  | .error _ => (false, [Ev.getCall h.URL])
  | .ok resp =>
    if resp.statusCode ≠ h.HealthyStatusCode then
      (false, [Ev.getCall h.URL, Ev.bodyClose])
    else
      (true, [Ev.getCall h.URL, Ev.bodyClose])

/-- Variant 2 Do: the boolean outcome alone. -/
def Do (h : HealthCheck) (net : Net) : Bool :=
  (DoT h net).1

end V2

namespace V3

/-- Variant 3 Do with its event log. Do returns (bool, error); the client
timeout is the per-check ResponseTimeout. On the status-mismatch path the
source returns `false, err` where err is necessarily nil at that point.
This Do has no deferred resp.Body.Close(), so no path logs a bodyClose. -/
def DoT (h : HealthCheck) (net : Net) :
    (Bool × Option GetError) × List Ev :=
  match clientGet net h.ResponseTimeout h.URL with
  | .error e => ((false, some e), [Ev.getCall h.URL])
  | .ok resp =>
    if resp.statusCode ≠ h.HealthyStatusCode then
      ((false, none), [Ev.getCall h.URL])
    else
      ((true, none), [Ev.getCall h.URL])

/-- Variant 3 Do: the (healthy, error) pair alone. -/
def Do (h : HealthCheck) (net : Net) : Bool × Option GetError :=
  (DoT h net).1

end V3

/-- JSON documents, as far as this config format needs them. Numbers are
integers: every number the config format writes (durations in nanoseconds,
status codes) is one. -/
inductive Json where
  | null
  | bool (b : Bool)
  | num (n : Int)
  | str (s : String)
  | arr (elems : List Json)
  | obj (fields : List (String × Json))
deriving Repr

/-- ASCII lower casing of one character, for the case-insensitive key
matching of encoding/json. -/
def lowerChar (c : Char) : Char :=
  if c.toNat ≥ 65 ∧ c.toNat ≤ 90 then Char.ofNat (c.toNat + 32) else c

/-- Case-folded character list equality. -/
def eqFoldChars : List Char → List Char → Bool
  | [], [] => true
  | c :: cs, d :: ds => lowerChar c == lowerChar d && eqFoldChars cs ds
  | _, _ => false

/-- Whether a JSON object key names a struct field: encoding/json matches
field names case-insensitively. -/
def keyMatches (k field : String) : Bool := eqFoldChars k.data field.data

/-- One key/value pair applied to a HealthCheck being decoded, following
the semantics of encoding/json for this struct: a key naming a field
(matched case-insensitively) assigns it, requiring a string for URL and
integers for ResponseTimeout (time.Duration) and HealthyStatusCode, an
unknown key is ignored, and a wrongly typed value is an error. A later
duplicate key overwrites an earlier one. -/
def decodeField (h : HealthCheck) (kv : String × Json) :
    Except String HealthCheck :=
  if keyMatches kv.1 "URL" then
    match kv.2 with
    | .str s => .ok { h with URL := s }
    | _ => .error "cannot unmarshal value into field URL of type string"
  else if keyMatches kv.1 "ResponseTimeout" then
    match kv.2 with
    | .num n => .ok { h with ResponseTimeout := n }
    | _ => .error "cannot unmarshal value into field ResponseTimeout of type time.Duration"
  else if keyMatches kv.1 "HealthyStatusCode" then
    match kv.2 with
    | .num n => .ok { h with HealthyStatusCode := n }
    | _ => .error "cannot unmarshal value into field HealthyStatusCode of type int"
  else
    .ok h

/-- Decoding one array element into a HealthCheck: an object assigns the
fields its keys name, every absent field keeping the zero value of its type
(empty URL, zero ResponseTimeout, zero HealthyStatusCode); a JSON null
leaves the zero value; anything else is an error, as encoding/json rejects
non-object values for a struct. -/
def decodeHealthCheck (j : Json) : Except String HealthCheck :=
  match j with
  | .obj fields => fields.foldlM decodeField ⟨"", 0, 0⟩
  | .null => .ok ⟨"", 0, 0⟩
  | _ => .error "cannot unmarshal value into HealthCheck"

/-- Decoding a list of array elements in order, stopping at the first
error. -/
def decodeList : List Json → Except String (List HealthCheck)
  | [] => .ok []
  | j :: rest =>
    match decodeHealthCheck j with
    | .error m => .error m
    | .ok h =>
      match decodeList rest with
      | .error m => .error m
      | .ok t => .ok (h :: t)

/-- Decoding a whole document into a slice of HealthCheck: a JSON array of
elements, a JSON null giving the nil slice, anything else an error. -/
def decodeHealthChecks (j : Json) : Except String (List HealthCheck) :=
  match j with
  | .arr elems => decodeList elems
  | .null => .ok []
  | _ => .error "cannot unmarshal value into slice of HealthCheck"

/-- json.Marshal of one HealthCheck: an object with the field names as
keys, the duration as its nanosecond count. -/
def encodeHealthCheck (h : HealthCheck) : Json :=
  .obj [("URL", .str h.URL),
        ("ResponseTimeout", .num h.ResponseTimeout),
        ("HealthyStatusCode", .num h.HealthyStatusCode)]

/-- json.Marshal of a slice of HealthCheck: the array of its elements. -/
def encodeConfig (hs : List HealthCheck) : Json :=
  .arr (hs.map encodeHealthCheck)

/-- What a path holds on the filesystem: nothing readable, bytes that are
not valid JSON, or bytes parsing to a JSON document. -/
inductive FileState where
  | missing
  | malformed
  | content (j : Json)

/-- The two kinds of error readConfig returns: the os.ReadFile error when
the path is missing or unreadable, and the json.Unmarshal error when the
bytes are not valid JSON or have the wrong shape. -/
inductive ConfigError where
  | fileReadError
  | decodeError (msg : String)
deriving Repr, DecidableEq

/-- readConfig of variant 3: read the file (failing with the read error),
then json.Unmarshal the bytes into a slice of HealthCheck (failing with
the decode error), returning the decoded sequence in document order. -/
def readConfig (fs : String → FileState) (path : String) :
    Except ConfigError (List HealthCheck) :=
  match fs path with
  | .missing => .error .fileReadError
  | .malformed => .error (.decodeError "invalid character in JSON input")
  | .content j =>
    match decodeHealthChecks j with
    | .error m => .error (.decodeError m)
    | .ok hs => .ok hs

/-- The rendering the fmt verb %v gives an error value in the unhealthy
line of variant 3. -/
def fmtGetError : GetError → String
  | .connectionError => "connection refused"
  | .timeoutError => "context deadline exceeded"
  | .tooManyRedirects => "stopped after 10 redirects"

/-- %v of a possibly nil error: Printf renders a nil error as nil in angle
brackets. -/
def fmtErrOpt : Option GetError → String
  | none => "<nil>"
  | some e => fmtGetError e

/-- %v of a config error, as main prints it to standard error. -/
def fmtConfigError : ConfigError → String
  | .fileReadError => "open healthchecks.json: no such file or directory"
  | .decodeError m => m

/-- The outcome of one process run: its exit code, its event log (Get
calls, Body closes, printed standard-output lines), and the lines written
to standard error. -/
structure ProcResult where
  exitCode : Nat
  events : List Ev
  stderr : List String
deriving Repr, DecidableEq

/-- The world a run sees: a filesystem and a network. -/
structure World where
  fs : String → FileState
  net : Net

namespace V3

/-- The line variant 3 prints for an unhealthy check: the URL and the %v of
the error returned beside the boolean. -/
def unhealthyLine (h : HealthCheck) (net : Net) : String :=
  h.URL ++ " is unhealthy (" ++ fmtErrOpt (Do h net).2 ++ ")"

/-- The loop of variant 3 main over the decoded checks: run Do on each in
order and print the URL and error of each unhealthy one. -/
def runChecks (net : Net) : List HealthCheck → List Ev
  | [] => []
  | h :: rest =>
    let r := DoT h net
    r.2 ++ (if r.1.1 then [] else [Ev.printLine (unhealthyLine h net)])
        ++ runChecks net rest

end V3

namespace V0

/-- The URL of the single hardcoded check of variant 0. -/
def url : String := "http://localhost:8080/healthz"

/-- Variant 0 main: one Get with a 2 second client timeout; on a transport
error or a status other than 200 it prints the message and exits 1,
otherwise it falls off main and exits 0. -/
def main (net : Net) : ProcResult :=
  match clientGet net twoSeconds url with
  | .error _ =>
    ⟨1, [Ev.getCall url, Ev.printLine "Service unhealthy!"], []⟩
  | .ok resp =>
    if resp.statusCode ≠ 200 then
      ⟨1, [Ev.getCall url, Ev.printLine "Service unhealthy!"], []⟩
    else
      ⟨0, [Ev.getCall url], []⟩

end V0

namespace V1

/-- Variant 1 main: loop over the hardcoded list; nothing in the loop
touches the exit code, so the process exits 0. -/
def main (net : Net) : ProcResult :=
  ⟨0, runChecks net healthChecks, []⟩

end V1

namespace V3

/-- Variant 3 main: load the config; on a config error report it on
standard error and exit 1 having made no network call; otherwise loop over
the decoded checks and exit 0 whatever their outcomes. -/
def main (w : World) : ProcResult :=
  match readConfig w.fs "healthchecks.json" with
  | .error e => ⟨1, [], ["x: " ++ fmtConfigError e]⟩
  | .ok hs => ⟨0, runChecks w.net hs, []⟩

end V3

/-- The dummy test server of the repository: 200 at healthz, 301 with no
Location header at healthz2, 200 after 3 seconds at healthz3, nothing
else listening. -/
def serverNet : Net := fun u =>
  if u = "http://localhost:8080/healthz" then .replies 0 200 none
  else if u = "http://localhost:8080/healthz2" then .replies 0 301 none
  else if u = "http://localhost:8080/healthz3" then .replies 3000000000 200 none
  else .unreachable

/-- A network whose one URL replies at once with a 301 pointing at the
healthz endpoint of the test server: what the healthz2 endpoint would be if
it sent a Location header. -/
def redirectingNet : Net := fun u =>
  if u = "http://localhost:8080/healthz2" then
    .replies 0 301 (some "http://localhost:8080/healthz")
  else serverNet u

section Lemmas

lemma printedLines_append (a b : List Ev) :
    printedLines (a ++ b) = printedLines a ++ printedLines b :=
  List.filterMap_append a b _

lemma requestedURLs_append (a b : List Ev) :
    requestedURLs (a ++ b) = requestedURLs a ++ requestedURLs b :=
  List.filterMap_append a b _

/-- Every run of the variant 1 Do logs exactly one Get call, for its own
URL, and prints nothing itself. -/
lemma doT1_events (h : HealthCheck) (net : Net) :
    requestedURLs (V1.DoT h net).2 = [h.URL] ∧
    printedLines (V1.DoT h net).2 = [] := by
  unfold V1.DoT
  cases clientGet net twoSeconds h.URL with
  | error e => simp [requestedURLs, printedLines]
  | ok r =>
    by_cases hs : r.statusCode ≠ h.HealthyStatusCode <;>
      simp [hs, requestedURLs, printedLines]

/-- Every run of the variant 3 Do logs exactly one Get call, for its own
URL, and prints nothing itself. -/
lemma doT3_events (h : HealthCheck) (net : Net) :
    requestedURLs (V3.DoT h net).2 = [h.URL] ∧
    printedLines (V3.DoT h net).2 = [] := by
  unfold V3.DoT
  cases clientGet net h.ResponseTimeout h.URL with
  | error e => simp [requestedURLs, printedLines]
  | ok r =>
    by_cases hs : r.statusCode ≠ h.HealthyStatusCode <;>
      simp [hs, requestedURLs, printedLines]

/-- The loop of variant 1 main: it issues exactly one Get per check, in
list order, and prints exactly the unhealthy URLs, in list order. -/
lemma runChecks1_spec (net : Net) (hs : List HealthCheck) :
    requestedURLs (V1.runChecks net hs) = hs.map (fun h => h.URL) ∧
    printedLines (V1.runChecks net hs)
      = (hs.filter fun h => ! V1.Do h net).map
          (fun h => h.URL ++ " is unhealthy") := by
  induction hs with
  | nil => simp [V1.runChecks, requestedURLs, printedLines]
  | cons h t ih =>
    have ev := doT1_events h net
    constructor
    · simp only [V1.runChecks, requestedURLs_append, ev.1, ih.1,
        List.map_cons]
      cases hdo : (V1.DoT h net).1 <;> simp [requestedURLs]
    · simp only [V1.runChecks, printedLines_append, ev.2, ih.2,
        List.filter_cons]
      cases hdo : (V1.DoT h net).1 <;> simp [V1.Do, hdo, printedLines]

/-- The loop of variant 3 main: it issues exactly one Get per check, in
list order, and prints exactly one line per unhealthy check, in list
order, each line carrying the URL and the error value. -/
lemma runChecks3_spec (net : Net) (hs : List HealthCheck) :
    requestedURLs (V3.runChecks net hs) = hs.map (fun h => h.URL) ∧
    printedLines (V3.runChecks net hs)
      = (hs.filter fun h => ! (V3.Do h net).1).map
          (fun h => V3.unhealthyLine h net) := by
  induction hs with
  | nil => simp [V3.runChecks, requestedURLs, printedLines]
  | cons h t ih =>
    have ev := doT3_events h net
    constructor
    · simp only [V3.runChecks, requestedURLs_append, ev.1, ih.1,
        List.map_cons]
      cases hdo : (V3.DoT h net).1.1 <;> simp [requestedURLs]
    · simp only [V3.runChecks, printedLines_append, ev.2, ih.2,
        List.filter_cons]
      cases hdo : (V3.DoT h net).1.1 <;> simp [V3.Do, hdo, printedLines]

/-- Against a URL that replies once with no Location header, client.Get
either times out (positive timeout smaller than the delay) or delivers
that reply. -/
lemma clientGet_single (net : Net) (url : String) (d : Nat) (s t : Int)
    (hnet : net url = .replies d s none) :
    clientGet net t url =
      if 0 < t ∧ t < (d : Int) then .error .timeoutError
      else .ok ⟨s, none⟩ := by
  unfold clientGet clientGetAux
  rw [hnet]
  simp only [Nat.zero_add]
  split
  · rfl
  · split <;> rfl

end Lemmas

/-- C1: for every CheckSpec, Do() returns healthy exactly when the GET
completes without a transport error and the delivered status code equals
the expected one; in particular any transport failure (connection refused,
DNS failure, timeout) gives unhealthy whatever the expected code, and a
delivered response with a differing code gives unhealthy. Stated for the
variant 1 Do (fixed 2 second timeout) and the variant 3 Do (per-check
timeout). -/
theorem C1_do_healthy_iff (h : HealthCheck) (net : Net) :
    (V1.Do h net = true ↔
      ∃ r, clientGet net twoSeconds h.URL = .ok r ∧
        r.statusCode = h.HealthyStatusCode) ∧
    ((V3.Do h net).1 = true ↔
      ∃ r, clientGet net h.ResponseTimeout h.URL = .ok r ∧
        r.statusCode = h.HealthyStatusCode) := by
  constructor
  · unfold V1.Do V1.DoT
    cases hget : clientGet net twoSeconds h.URL with
    | error e => simp
    | ok r => by_cases hs : r.statusCode = h.HealthyStatusCode <;> simp [hs]
  · unfold V3.Do V3.DoT
    cases hget : clientGet net h.ResponseTimeout h.URL with
    | error e => simp
    | ok r => by_cases hs : r.statusCode = h.HealthyStatusCode <;> simp [hs]

/-- C2 counterexample, in two parts. First, a target that does respond
(at once, with status 500 and no transport failure) against a spec with
Timeout zero and expected code 200: the claim as stated says a zero
Timeout (or a Timeout above the response delay) yields healthy, but Do is
unhealthy here, the delivered status differing from the expected one.
Second, a spec with the nonzero Timeout -1 against a target responding
after 5 nanoseconds, longer than that Timeout: the claim as stated says
unhealthy, but the client sets a deadline only for a positive Timeout, the
response is delivered and the check is healthy. -/
theorem C2_counterexample :
    (fun _ : String => NetBehavior.replies 0 500 none) "http://x"
      = NetBehavior.replies 0 500 none ∧
    clientGet (fun _ => NetBehavior.replies 0 500 none) 0 "http://x"
      = .ok ⟨500, none⟩ ∧
    V2.Do ⟨"http://x", 0, 200⟩ (fun _ => NetBehavior.replies 0 500 none)
      = false ∧
    (V3.Do ⟨"http://x", 0, 200⟩ (fun _ => NetBehavior.replies 0 500 none)).1
      = false ∧
    ((-1 : Int) ≠ 0 ∧ (-1 : Int) < ((5 : Nat) : Int)) ∧
    clientGet (fun _ => NetBehavior.replies 5 200 none) (-1) "http://x"
      = .ok ⟨200, none⟩ ∧
    V2.Do ⟨"http://x", -1, 200⟩ (fun _ => NetBehavior.replies 5 200 none)
      = true ∧
    (V3.Do ⟨"http://x", -1, 200⟩ (fun _ => NetBehavior.replies 5 200 none)).1
      = true :=
  ⟨rfl, rfl, rfl, rfl, by decide, rfl, rfl, rfl⟩

/-- C2 amended: the GET of Do() is bounded by the ResponseTimeout of the
spec only when that timeout is positive — net/http sets a deadline only
for a positive Client.Timeout, so zero (and likewise any non-positive
value) means unbounded. A target replying after longer than a positive
timeout is unhealthy; with a non-positive Timeout or a Timeout larger
than the delay the reply is delivered, and the check is then healthy
exactly when the delivered status code equals the expected one. Stated
for the variant 2 and variant 3 Do, which read the ResponseTimeout
field. -/
theorem C2_timeout_bound (url : String) (d : Nat) (s c t : Int) (net : Net)
    (hnet : net url = .replies d s none) :
    (0 < t → t < (d : Int) →
      V2.Do ⟨url, t, c⟩ net = false ∧ (V3.Do ⟨url, t, c⟩ net).1 = false) ∧
    ((t ≤ 0 ∨ (d : Int) < t) →
      (V2.Do ⟨url, t, c⟩ net = true ↔ s = c) ∧
      ((V3.Do ⟨url, t, c⟩ net).1 = true ↔ s = c)) := by
  have hres := clientGet_single net url d s t hnet
  constructor
  · intro ht hlt
    have hto : clientGet net t url = .error .timeoutError := by
      rw [hres]; simp [ht, hlt]
    exact ⟨by simp [V2.Do, V2.DoT, hto], by simp [V3.Do, V3.DoT, hto]⟩
  · intro hok
    have hdeliver : clientGet net t url = .ok ⟨s, none⟩ := by
      rw [hres]
      rcases hok with h0 | hgt
      · simp [not_lt.mpr h0]
      · simp [not_lt.mpr (le_of_lt hgt)]
    constructor
    · by_cases hsc : s = c <;> simp [V2.Do, V2.DoT, hdeliver, hsc]
    · by_cases hsc : s = c <;> simp [V3.Do, V3.DoT, hdeliver, hsc]

/-- C2 witness: the amended theorem applied at the healthz3 endpoint of
the test server, which replies after 3 seconds with status 200: with a 2
second timeout the check is unhealthy, with a 10 second timeout healthy,
with no timeout healthy. -/
theorem C2_timeout_bound_witness :
    V2.Do ⟨"http://localhost:8080/healthz3", 2000000000, 200⟩ serverNet
      = false ∧
    V2.Do ⟨"http://localhost:8080/healthz3", 10000000000, 200⟩ serverNet
      = true ∧
    V2.Do ⟨"http://localhost:8080/healthz3", 0, 200⟩ serverNet = true := by
  have h1 := C2_timeout_bound "http://localhost:8080/healthz3"
    3000000000 200 200 2000000000 serverNet rfl
  have h2 := C2_timeout_bound "http://localhost:8080/healthz3"
    3000000000 200 200 10000000000 serverNet rfl
  have h3 := C2_timeout_bound "http://localhost:8080/healthz3"
    3000000000 200 200 0 serverNet rfl
  exact ⟨(h1.1 (by decide) (by decide)).1,
    ((h2.2 (Or.inr (by decide))).1).mpr rfl,
    ((h3.2 (Or.inl (by decide))).1).mpr rfl⟩

/-- C3: the variant 1 Do closes the response body (the deferred
resp.Body.Close) before returning whenever its GET delivered a response,
on both return paths; but the variant 3 Do of the file-configured program
has no Body.Close at all: at a check whose GET succeeds against the test
server its event log is the bare Get call, with no body close before the
return, contradicting release on every exit path. -/
theorem C3_body_never_closed :
    (∀ (h : HealthCheck) (net : Net) (r : Response),
      clientGet net twoSeconds h.URL = .ok r →
        Ev.bodyClose ∈ (V1.DoT h net).2) ∧
    clientGet serverNet 0 "http://localhost:8080/healthz" = .ok ⟨200, none⟩ ∧
    (V3.Do ⟨"http://localhost:8080/healthz", 0, 200⟩ serverNet)
      = (true, none) ∧
    (V3.DoT ⟨"http://localhost:8080/healthz", 0, 200⟩ serverNet).2
      = [Ev.getCall "http://localhost:8080/healthz"] ∧
    Ev.bodyClose ∉
      (V3.DoT ⟨"http://localhost:8080/healthz", 0, 200⟩ serverNet).2 := by
  refine ⟨?_, rfl, rfl, rfl, by decide⟩
  intro h net r hget
  simp only [V1.DoT, hget]
  split <;> simp

/-- C4 counterexample: an array element missing a required key (URL or
HealthyStatusCode, or both) decodes without any error, the missing fields
coming back zero valued — readConfig does not fail on missing keys. -/
theorem C4_counterexample :
    decodeHealthChecks
        (Json.arr [Json.obj [("HealthyStatusCode", Json.num 200)]])
      = .ok [⟨"", 0, 200⟩] ∧
    decodeHealthChecks (Json.arr [Json.obj [("URL", Json.str "http://x")]])
      = .ok [⟨"http://x", 0, 0⟩] ∧
    readConfig (fun _ => FileState.content (Json.arr [Json.obj []]))
        "healthchecks.json"
      = .ok [⟨"", 0, 0⟩] :=
  ⟨rfl, rfl, rfl⟩

/-- C4 amended: the decode does not fail on absent keys: every absent
field of an element is silently given the zero value of its type (empty
URL, zero HealthyStatusCode, and the timeout zero meaning no timeout);
unknown keys are ignored; a decode error comes only from shape, such as a
wrongly typed present field or a document that is not an array of
objects. -/
theorem C4_decode_defaults (u : String) (n c : Int) (h0 : HealthCheck)
    (k : String) (v : Json) :
    decodeHealthCheck
        (Json.obj [("URL", Json.str u), ("HealthyStatusCode", Json.num c)])
      = .ok ⟨u, 0, c⟩ ∧
    decodeHealthCheck (Json.obj []) = .ok ⟨"", 0, 0⟩ ∧
    (keyMatches k "URL" = false → keyMatches k "ResponseTimeout" = false →
      keyMatches k "HealthyStatusCode" = false →
        decodeField h0 (k, v) = .ok h0) ∧
    (∃ m, decodeHealthCheck (Json.obj [("URL", Json.num n)]) = .error m) ∧
    (∃ m, decodeHealthChecks (Json.str u) = .error m) := by
  refine ⟨rfl, rfl, ?_, ⟨_, rfl⟩, ⟨_, rfl⟩⟩
  intro h1 h2 h3
  simp [decodeField, h1, h2, h3]

/-- C4 witness: the amended theorem applied at a concrete unknown key,
which the decode leaves the element unchanged by. -/
theorem C4_decode_defaults_witness :
    decodeField ⟨"a", 1, 2⟩ ("Comment", Json.str "x") = .ok ⟨"a", 1, 2⟩ :=
  (C4_decode_defaults "u" 0 0 ⟨"a", 1, 2⟩ "Comment"
    (Json.str "x")).2.2.1 rfl rfl rfl

/-- C5: the healthz2 endpoint replies 301 with no Location header, so the
client delivers the first response unfollowed and the comparison of Do
sees the original 301: the expect-301 check is healthy. Had the endpoint
sent a Location header (redirectingNet), the default client would follow
it to the final 200 and the same check would be unhealthy. -/
theorem C5_redirect_first_response :
    serverNet "http://localhost:8080/healthz2" = .replies 0 301 none ∧
    clientGet serverNet twoSeconds "http://localhost:8080/healthz2"
      = .ok ⟨301, none⟩ ∧
    V1.Do ⟨"http://localhost:8080/healthz2", 0, 301⟩ serverNet = true ∧
    redirectingNet "http://localhost:8080/healthz2"
      = .replies 0 301 (some "http://localhost:8080/healthz") ∧
    clientGet redirectingNet twoSeconds "http://localhost:8080/healthz2"
      = .ok ⟨200, none⟩ ∧
    V1.Do ⟨"http://localhost:8080/healthz2", 0, 301⟩ redirectingNet
      = false :=
  ⟨rfl, rfl, rfl, rfl, rfl, rfl⟩

/-- C6: variant 0 exits 0 exactly when the GET delivered a 200, and
otherwise exits 1 having printed its message; the multi-check variants
never let an unhealthy check touch the exit code: variant 1 always exits
0, and variant 3 exits 0 whenever the config loaded, each unhealthy
endpoint contributing one standard-output line, however many checks
fail. -/
theorem C6_exit_codes (net : Net) (w : World) (hs : List HealthCheck)
    (hok : readConfig w.fs "healthchecks.json" = .ok hs) :
    ((V0.main net).exitCode = 0 ↔
      ∃ r, clientGet net twoSeconds V0.url = .ok r ∧ r.statusCode = 200) ∧
    ((V0.main net).exitCode ≠ 0 →
      (V0.main net).exitCode = 1 ∧
      printedLines (V0.main net).events = ["Service unhealthy!"]) ∧
    (V1.main net).exitCode = 0 ∧
    (V3.main w).exitCode = 0 ∧
    printedLines (V3.main w).events
      = ((hs.filter fun h => ! (V3.Do h w.net).1).map
          (fun h => V3.unhealthyLine h w.net)) := by
  have h0 : ((V0.main net).exitCode = 0 ↔
      ∃ r, clientGet net twoSeconds V0.url = .ok r ∧ r.statusCode = 200) ∧
      ((V0.main net).exitCode ≠ 0 →
        (V0.main net).exitCode = 1 ∧
        printedLines (V0.main net).events = ["Service unhealthy!"]) := by
    unfold V0.main
    cases hget : clientGet net twoSeconds V0.url with
    | error e => simp [printedLines]
    | ok r =>
      by_cases hs2 : r.statusCode = 200 <;> simp [hs2, printedLines]
  refine ⟨h0.1, h0.2, rfl, ?_, ?_⟩
  · unfold V3.main
    rw [hok]
  · unfold V3.main
    rw [hok]
    exact (runChecks3_spec w.net hs).2

/-- C6 witness: the theorem applied to the test server and a config file
holding the three checks of the repository, in which only the 2 second
healthz3 check fails: variant 3 exits 0 with exactly that one line, and
variant 0 exits 0 against the healthy healthz endpoint. -/
theorem C6_exit_codes_witness :
    (V0.main serverNet).exitCode = 0 ∧
    (V1.main serverNet).exitCode = 0 ∧
    (V3.main ⟨fun _ => FileState.content (encodeConfig
        [⟨"http://localhost:8080/healthz", 2000000000, 200⟩,
         ⟨"http://localhost:8080/healthz2", 2000000000, 301⟩,
         ⟨"http://localhost:8080/healthz3", 2000000000, 200⟩]),
      serverNet⟩).exitCode = 0 ∧
    printedLines (V3.main ⟨fun _ => FileState.content (encodeConfig
        [⟨"http://localhost:8080/healthz", 2000000000, 200⟩,
         ⟨"http://localhost:8080/healthz2", 2000000000, 301⟩,
         ⟨"http://localhost:8080/healthz3", 2000000000, 200⟩]),
      serverNet⟩).events
      = ["http://localhost:8080/healthz3 is unhealthy (context deadline exceeded)"] := by
  have hx := C6_exit_codes serverNet
    ⟨fun _ => FileState.content (encodeConfig
        [⟨"http://localhost:8080/healthz", 2000000000, 200⟩,
         ⟨"http://localhost:8080/healthz2", 2000000000, 301⟩,
         ⟨"http://localhost:8080/healthz3", 2000000000, 200⟩]),
      serverNet⟩
    [⟨"http://localhost:8080/healthz", 2000000000, 200⟩,
     ⟨"http://localhost:8080/healthz2", 2000000000, 301⟩,
     ⟨"http://localhost:8080/healthz3", 2000000000, 200⟩] rfl
  refine ⟨hx.1.mpr ⟨⟨200, none⟩, rfl, rfl⟩, hx.2.2.1, hx.2.2.2.1, ?_⟩
  rw [hx.2.2.2.2]
  rfl

/-- C7: a config-loading failure is fatal and early: when readConfig
errors, variant 3 main exits 1, reports the error on standard error, and
its event log is empty — no network call and no check evaluation happened;
and readConfig distinguishes the failures, returning the file-read error
exactly for an unreadable path and a decode error for bytes that are
malformed JSON or decode to the wrong shape. -/
theorem C7_config_fatal (w : World) :
    (∀ e, readConfig w.fs "healthchecks.json" = .error e →
      (V3.main w).exitCode = 1 ∧
      (V3.main w).events = [] ∧
      requestedURLs (V3.main w).events = [] ∧
      (V3.main w).stderr = ["x: " ++ fmtConfigError e]) ∧
    (w.fs "healthchecks.json" = .missing →
      readConfig w.fs "healthchecks.json" = .error .fileReadError) ∧
    (w.fs "healthchecks.json" = .malformed →
      ∃ m, readConfig w.fs "healthchecks.json" = .error (.decodeError m)) ∧
    (∀ j m, w.fs "healthchecks.json" = .content j →
      decodeHealthChecks j = .error m →
      readConfig w.fs "healthchecks.json" = .error (.decodeError m)) := by
  refine ⟨?_, ?_, ?_, ?_⟩
  · intro e he
    unfold V3.main
    rw [he]
    exact ⟨rfl, rfl, rfl, rfl⟩
  · intro hm
    unfold readConfig
    rw [hm]
  · intro hm
    unfold readConfig
    rw [hm]
    exact ⟨_, rfl⟩
  · intro j m hc hd
    simp [readConfig, hc, hd]

/-- C7 witness: the theorem applied to a world with no config file:
variant 3 exits 1 with no network call, and readConfig returned the
file-read error. -/
theorem C7_config_fatal_witness :
    readConfig (fun _ => FileState.missing) "healthchecks.json"
      = .error .fileReadError ∧
    (V3.main ⟨fun _ => FileState.missing, serverNet⟩).exitCode = 1 ∧
    requestedURLs
      (V3.main ⟨fun _ => FileState.missing, serverNet⟩).events = [] := by
  have hx := C7_config_fatal ⟨fun _ => FileState.missing, serverNet⟩
  have hrd := hx.2.1 rfl
  have hfatal := hx.1 ConfigError.fileReadError hrd
  exact ⟨hrd, hfatal.1, hfatal.2.2.1⟩

/-- Element-wise round trip: decoding the encoding of a list of checks
gives back the list. -/
lemma decodeList_encode (hs : List HealthCheck) :
    decodeList (hs.map encodeHealthCheck) = .ok hs := by
  induction hs with
  | nil => rfl
  | cons h t ih =>
    have hone : decodeHealthCheck (encodeHealthCheck h) = .ok h := rfl
    simp [decodeList, hone, ih]

/-- Whole-document round trip of the decode against the encode. -/
lemma decodeHealthChecks_encode (hs : List HealthCheck) :
    decodeHealthChecks (encodeConfig hs) = .ok hs :=
  decodeList_encode hs

/-- C8: encoding a sequence of checks to the JSON config format (an array
of objects with keys URL, ResponseTimeout, HealthyStatusCode) and decoding
it back with the config loader yields an equal sequence, field for field
and in the same order. -/
theorem C8_roundtrip (hs : List HealthCheck) (fs : String → FileState)
    (path : String) (hfs : fs path = .content (encodeConfig hs)) :
    decodeHealthChecks (encodeConfig hs) = .ok hs ∧
    readConfig fs path = .ok hs := by
  have hdec : decodeHealthChecks (encodeConfig hs) = .ok hs :=
    decodeHealthChecks_encode hs
  refine ⟨hdec, ?_⟩
  simp [readConfig, hfs, hdec]

/-- C8 witness: the round trip at the concrete check list of variant 1. -/
theorem C8_roundtrip_witness :
    readConfig (fun _ => FileState.content (encodeConfig V1.healthChecks))
      "healthchecks.json" = .ok V1.healthChecks :=
  (C8_roundtrip V1.healthChecks
    (fun _ => FileState.content (encodeConfig V1.healthChecks))
    "healthchecks.json" rfl).2

/-- C9: both multi-check drivers evaluate every check exactly once,
sequentially, in list order — the Get calls they log are exactly the URLs
of the list, in order, whatever each outcome — and the lines they print
are exactly one per unhealthy check, in order, each carrying that URL. -/
theorem C9_driver_order (net : Net) (hs : List HealthCheck) :
    requestedURLs (V1.runChecks net hs) = hs.map (fun h => h.URL) ∧
    printedLines (V1.runChecks net hs)
      = ((hs.filter fun h => ! V1.Do h net).map
          (fun h => h.URL ++ " is unhealthy")) ∧
    requestedURLs (V3.runChecks net hs) = hs.map (fun h => h.URL) ∧
    printedLines (V3.runChecks net hs)
      = ((hs.filter fun h => ! (V3.Do h net).1).map
          (fun h => V3.unhealthyLine h net)) :=
  ⟨(runChecks1_spec net hs).1, (runChecks1_spec net hs).2,
   (runChecks3_spec net hs).1, (runChecks3_spec net hs).2⟩

/-- C10: in the file-configured variant, a delivered response with a
status other than the expected one makes Do return unhealthy paired with a
nil error — so the printed diagnostic for such a check renders the nil
error — and a non-nil error accompanies the outcome only when client.Get
itself failed. -/
theorem C10_mismatch_nil_error (h : HealthCheck) (net : Net) :
    (∀ r, clientGet net h.ResponseTimeout h.URL = .ok r →
      r.statusCode ≠ h.HealthyStatusCode →
      V3.Do h net = (false, none) ∧
      V3.unhealthyLine h net = h.URL ++ " is unhealthy (<nil>)") ∧
    (∀ e, (V3.Do h net).2 = some e →
      clientGet net h.ResponseTimeout h.URL = .error e) := by
  constructor
  · intro r hget hne
    have hdo : V3.Do h net = (false, none) := by
      simp [V3.Do, V3.DoT, hget, hne]
    refine ⟨hdo, ?_⟩
    unfold V3.unhealthyLine
    rw [hdo]
    rw [show fmtErrOpt (false, (none : Option GetError)).2 = "<nil>" from rfl]
    rw [String.append_assoc, String.append_assoc]
    rfl
  · intro e he
    cases hget : clientGet net h.ResponseTimeout h.URL with
    | error e2 =>
      unfold V3.Do V3.DoT at he
      rw [hget] at he
      simp at he
      rw [he]
    | ok r =>
      unfold V3.Do V3.DoT at he
      rw [hget] at he
      by_cases hs2 : r.statusCode ≠ h.HealthyStatusCode
      · simp [hs2] at he
      · simp [hs2] at he

/-- C10 witness: against the test server, a check expecting 200 from the
301-returning healthz2 endpoint comes back unhealthy with a nil error, and
its diagnostic line renders the nil. -/
theorem C10_mismatch_nil_error_witness :
    V3.Do ⟨"http://localhost:8080/healthz2", 0, 200⟩ serverNet
      = (false, none) ∧
    V3.unhealthyLine ⟨"http://localhost:8080/healthz2", 0, 200⟩ serverNet
      = "http://localhost:8080/healthz2" ++ " is unhealthy (<nil>)" :=
  (C10_mismatch_nil_error ⟨"http://localhost:8080/healthz2", 0, 200⟩
    serverNet).1 ⟨301, none⟩ rfl (by decide)
